import Mathlib

/-!
Verification of the core order-execution, resilience and monitoring logic of
the `tradingAPI` Go service, as a shallow embedding in Lean 4.

Conventions of the embedding:
* Go `float64` money/price/duration values are modelled as exact rationals
  (`ℚ`); the claims under study concern rounding to decimal grids and step
  multiples, which the rational model captures exactly.  Formatting with
  `fmt.Sprintf` to `p` decimals followed by `strconv.ParseFloat` is modelled
  as rounding to the nearest multiple of `10⁻ᵖ` (ties upward; the concrete
  inputs used in the theorems below never sit on a tie).
* Go `int`/`int64` fields are modelled as `ℤ` (or `ℕ` where the source only
  ever holds non-negative counts).
* Error strings are Lean `String`s; the substring matching done by
  `isRetryableError` and `HandleBinanceError` (`strings.Contains`,
  `strings.ToLower`) is modelled character-by-character so that it is
  kernel-computable.
* Venue interaction is modelled by an environment (`VenueEnv`) holding the
  outcome of each remote call, and every modelled function additionally
  returns the ordered list of venue calls it performed.
-/

namespace TradingAPI

/-! ## String literals used by the source (named so they can be reused) -/

def sBUY : String := "BUY"

def sSELL : String := "SELL"

def sMARKET : String := "MARKET"

def sLIMIT : String := "LIMIT"

def sEmpty : String := ""

def stPENDING : String := "PENDING"

def stACTIVE : String := "ACTIVE"

def stFAILED : String := "FAILED"

def stNEW : String := "NEW"

def stPARTIALLY_FILLED : String := "PARTIALLY_FILLED"

def stFILLED : String := "FILLED"

def stCANCELED : String := "CANCELED"

def stEXPIRED : String := "EXPIRED"

def csClosed : String := "closed"

def csOpen : String := "open"

def csHalfOpen : String := "half-open"

/-! ## Resilience layer: circuit breaker
Source: `src/unnamed/part_009`, `CircuitBreaker` (lines 282-349). -/

/-- Embedding of the Go `CircuitBreaker` struct (part_009 lines 283-289).
`resetTimeout` and `lastFailureTime` are durations/instants in ℚ; the Go
zero value of `time.Time` is modelled as instant `0`. -/
structure CircuitBreaker where
  maxFailures : ℕ
  resetTimeout : ℚ
  failures : ℕ
  lastFailureTime : ℚ
  state : String
deriving DecidableEq

/-- `NewCircuitBreaker` (part_009 lines 292-298). -/
def NewCircuitBreaker (maxFailures : ℕ) (resetTimeout : ℚ) : CircuitBreaker :=
  { maxFailures := maxFailures
    resetTimeout := resetTimeout
    failures := 0
    lastFailureTime := 0
    state := csClosed }

/-- Result of one `CircuitBreaker.Execute` call: the updated breaker, whether
the wrapped operation was invoked, and whether an error was returned. -/
structure ExecOutcome where
  cb : CircuitBreaker
  invoked : Bool
  isError : Bool
deriving DecidableEq

/-- Embedding of `CircuitBreaker.Execute` (part_009 lines 301-337).  The
wrapped `fn` is abstracted by its outcome `opFails` at call time `now`;
`time.Since(lastFailureTime) > resetTimeout` becomes
`now - lastFailureTime > resetTimeout`. -/
def CircuitBreaker.Execute (cb0 : CircuitBreaker) (now : ℚ) (opFails : Bool) :
    ExecOutcome :=
  let cb := if cb0.state = csOpen ∧ now - cb0.lastFailureTime > cb0.resetTimeout
            then { cb0 with state := csHalfOpen, failures := 0 }
            else cb0
  if cb.state = csOpen then
    { cb := cb, invoked := false, isError := true }
  else if opFails then
    let cb1 := { cb with failures := cb.failures + 1, lastFailureTime := now }
    let cb2 := if cb1.maxFailures ≤ cb1.failures
               then { cb1 with state := csOpen } else cb1
    { cb := cb2, invoked := true, isError := true }
  else
    let cb1 := if cb.state = csHalfOpen then { cb with state := csClosed } else cb
    { cb := { cb1 with failures := 0 }, invoked := true, isError := false }

/-- Repeatedly call `Execute` with an operation that fails, at the given
sequence of call times. -/
def runFails (cb : CircuitBreaker) : List ℚ → CircuitBreaker
  | [] => cb
  | t :: ts => runFails ((cb.Execute t true).cb) ts

/-! ## Resilience layer: error classification and retry
Source: `src/unnamed/part_009`, `ExecuteWithRetry` (lines 55-95),
`isRetryableError` (lines 98-137), `HandleBinanceError` (lines 140-229). -/

/-- ASCII lower-casing of one character, as done by `strings.ToLower` on the
ASCII error strings involved here. -/
def lowerChar (c : Char) : Char :=
  if 65 ≤ c.toNat ∧ c.toNat ≤ 90 then Char.ofNat (c.toNat + 32) else c

/-- `strings.ToLower`, character-by-character. -/
def lowerStr (s : String) : List Char := s.data.map lowerChar

/-- Does the second list occur as a prefix of the first? -/
def hasPre : List Char → List Char → Bool
  | _, [] => true
  | [], _ :: _ => false
  | c :: cs, d :: ds => c = d && hasPre cs ds

/-- `strings.Contains` over the underlying character lists. -/
def hasSub : List Char → List Char → Bool
  | [], needle => needle.isEmpty
  | h :: t, needle => hasPre (h :: t) needle || hasSub t needle

/-- `strings.Contains(s, sub)` on Lean strings. -/
def strContains (s sub : String) : Bool := hasSub s.data sub.data

def pat429 : String := "429"

def patTooMany : String := "too many requests"

def patTimeout : String := "timeout"

def patDeadline : String := "deadline exceeded"

def patConnection : String := "connection"

def patEof : String := "eof"

def pat500 : String := "500"

def pat502 : String := "502"

def pat503 : String := "503"

def pat504 : String := "504"

def patCode1003 : String := "-1003"

def patCode1021 : String := "-1021"

def patTimestampWord : String := "timestamp"

def patCode1022 : String := "-1022"

def patSignatureWord : String := "signature"

def patCode2010 : String := "-2010"

def patInsufficientBalance : String := "insufficient balance"

def patCode2019 : String := "-2019"

def patMarginWord : String := "margin"

def patCode4164 : String := "-4164"

def pat418 : String := "418"

def patCode2021 : String := "-2021"

def patCode2022 : String := "-2022"

/-- `isRetryableError` (part_009 lines 98-137): lower-cases the error text and
retries on rate-limit, timeout, connection, 5xx and Binance `-1003`
substrings.  The `err == nil` case cannot arise here because failures always
carry an error string. -/
def isRetryableError (err : String) : Bool :=
  let errStr := lowerStr err
  hasSub errStr pat429.data || hasSub errStr patTooMany.data ||
  hasSub errStr patTimeout.data || hasSub errStr patDeadline.data ||
  hasSub errStr patConnection.data || hasSub errStr patEof.data ||
  hasSub errStr pat500.data || hasSub errStr pat502.data ||
  hasSub errStr pat503.data || hasSub errStr pat504.data ||
  hasSub errStr patCode1003.data

/-- Semantic kind assigned by `HandleBinanceError` (part_009 lines 140-229).
`passthrough` models the final `return err` (no classification). -/
inductive BinanceKind where
  | timestampOutOfSync
  | invalidSignature
  | insufficientBalance
  | marginInsufficient
  | positionSideInvalid
  | rateLimited
  | ipBanned
  | orderWouldTrigger
  | reduceOnlyReject
  | passthrough
deriving DecidableEq

/-- The `Retry` field of the `BinanceError` built for each kind (`none` for
`passthrough`, which returns the original error unwrapped).  Only
`rateLimited` carries `Retry: true`; the `ipBanned` (HTTP 418) error is
built with `Retry: false` and the message "Stop all trading immediately". -/
def BinanceKind.retryFlag : BinanceKind → Option Bool
  | .rateLimited => some true
  | .passthrough => none
  | _ => some false

/-- `HandleBinanceError` (part_009 lines 140-229): classification by
case-sensitive substring checks on the raw error text, in source order.
Note the rate-limit check (`-1003` or `429`) precedes the `418` ban check. -/
def HandleBinanceError (errStr : String) : BinanceKind :=
  if strContains errStr patCode1021 || strContains errStr patTimestampWord then .timestampOutOfSync
  else if strContains errStr patCode1022 || strContains errStr patSignatureWord then .invalidSignature
  else if strContains errStr patCode2010 || strContains errStr patInsufficientBalance then .insufficientBalance
  else if strContains errStr patCode2019 || strContains errStr patMarginWord then .marginInsufficient
  else if strContains errStr patCode4164 then .positionSideInvalid
  else if strContains errStr patCode1003 || strContains errStr pat429 then .rateLimited
  else if strContains errStr pat418 then .ipBanned
  else if strContains errStr patCode2021 then .orderWouldTrigger
  else if strContains errStr patCode2022 then .reduceOnlyReject
  else .passthrough

/-- `RetryConfig` (part_009 lines 37-42); durations in ℚ. -/
structure RetryConfig where
  maxRetries : ℕ
  initialBackoff : ℚ
  maxBackoff : ℚ
  backoffFactor : ℚ
deriving DecidableEq

/-- `DefaultRetryConfig` (part_009 lines 45-52): 3 retries, 1s initial,
30s cap, factor 2. -/
def DefaultRetryConfig : RetryConfig :=
  { maxRetries := 3, initialBackoff := 1, maxBackoff := 30, backoffFactor := 2 }

/-- Result of `ExecuteWithRetry`: `success` for a nil error, `nonRetryable e`
when a non-retryable error is returned directly, `exhausted maxRetries e` for
the final `fmt.Errorf("max retries (%d) exceeded: %v", ...)` wrapping. -/
inductive RetryOutcome where
  | success
  | nonRetryable (e : String)
  | exhausted (maxRetries : ℕ) (last : String)
deriving DecidableEq

/-- The retry loop of `ExecuteWithRetry` (part_009 lines 63-92).  The
operation is abstracted as `op : attempt index → Option errorText`
(`none` = success).  `left` counts the attempts still allowed after the
current one (`maxRetries - attempt`); `backoff` is the current sleep value.
Returns the outcome, the number of invocations of `op`, and the list of
sleeps performed (in order). -/
def retryAux (op : ℕ → Option String) (maxR : ℕ) (factor maxB : ℚ) :
    ℕ → ℕ → ℚ → RetryOutcome × ℕ × List ℚ
  | 0, attempt, _ =>
    match op attempt with
    | none => (.success, 1, [])
    | some e =>
      if isRetryableError e then (.exhausted maxR e, 1, [])
      else (.nonRetryable e, 1, [])
  | l + 1, attempt, backoff =>
    match op attempt with
    | none => (.success, 1, [])
    | some e =>
      if isRetryableError e then
        let nb := min (backoff * factor) maxB
        let r := retryAux op maxR factor maxB l (attempt + 1) nb
        (r.1, r.2.1 + 1, backoff :: r.2.2)
      else (.nonRetryable e, 1, [])

/-- `ExecuteWithRetry` (part_009 lines 55-95); a `nil` config selects
`DefaultRetryConfig`. -/
def ExecuteWithRetry (op : ℕ → Option String) (config : Option RetryConfig) :
    RetryOutcome × ℕ × List ℚ :=
  let cfg := config.getD DefaultRetryConfig
  retryAux op cfg.maxRetries cfg.backoffFactor cfg.maxBackoff cfg.maxRetries 0 cfg.initialBackoff

/-! ## C7: `Banned` classification versus retryability -/

/-- An error text containing both the 418 marker and a transient-error
substring (realistic for a venue ban message). -/
def errBannedTimeout : String := "418 timeout"

/-! ## Order execution: quantity normalization
Source: `src/internal/binance/binance_advanced_funcs.go`,
`calculateQuantity` (lines 667-702), `roundToStepSize` (lines 704-710),
`pow10` (lines 713-719). -/

def sDot : String := "."

def charZero : Char := Char.ofNat 48

/-- Go `int64(x)` conversion for a finite float: truncation toward zero. -/
def qtrunc (x : ℚ) : ℤ := if 0 ≤ x then ⌊x⌋ else ⌈x⌉

/-- `roundToStepSize` (lines 704-710): nearest multiple of `stepSize` via
`float64(int64(value/stepSize + 0.5)) * stepSize`, with the `stepSize == 0`
guard. -/
def roundToStepSize (value stepSize : ℚ) : ℚ :=
  if stepSize = 0 then value else (qtrunc (value / stepSize + 1/2) : ℚ) * stepSize

/-- Value of `strconv.ParseFloat(fmt.Sprintf("%.<p>f", x), 64)`: rounding to
the nearest multiple of `10⁻ᵖ` (ties toward +∞; no call site below sits on a
tie, and all call sites have `x ≥ 0`). -/
def fmtRound (x : ℚ) (p : ℕ) : ℚ := ((⌊x * 10 ^ p + 1/2⌋ : ℤ) : ℚ) / 10 ^ p

/-- Left-pad a digit string with zeros to width `w`. -/
def zeroPad (w : ℕ) (s : String) : String :=
  String.mk (List.replicate (w - s.length) charZero) ++ s

/-- The decimal string produced by `fmt.Sprintf("%.<p>f", x)` for `x ≥ 0`. -/
def goFormat (x : ℚ) (p : ℕ) : String :=
  let m := (⌊x * 10 ^ p + 1/2⌋).toNat
  if p = 0 then toString m
  else toString (m / 10 ^ p) ++ sDot ++ zeroPad p (toString (m % 10 ^ p))

/-- The raw quantity `(size × leverage) / price` (line 669). -/
def rawQuantity (size price : ℚ) (leverage : ℤ) : ℚ := size * (leverage : ℚ) / price

/-- Common core of `calculateQuantity` (lines 667-689): the effective step
(`step ≤ 0` falls back to `1/10^quantityPrecision`, covering both a
`strconv.ParseFloat` failure, which yields 0, and the explicit `step <= 0`
guard) and the quantity after rounding to the step grid and clamping up to
one step.  Returns `(step, q2)`. -/
def calcQty (size price : ℚ) (leverage : ℤ) (prec : ℕ) (stepSize : ℚ) : ℚ × ℚ :=
  let quantity := rawQuantity size price leverage
  let step := if stepSize ≤ 0 then 1 / 10 ^ prec else stepSize
  let q1 := roundToStepSize quantity step
  (step, if q1 < step then step else q1)

/-- `calculateQuantity` (lines 667-702): the returned string.  After
formatting, the value is re-parsed; if it collapsed to zero the minimum
quantity (one step) is formatted instead. -/
def calculateQuantity (size price : ℚ) (leverage : ℤ) (prec : ℕ) (stepSize : ℚ) :
    String :=
  let c := calcQty size price leverage prec stepSize
  if fmtRound c.2 prec = 0 then goFormat c.1 prec else goFormat c.2 prec

/-- The numeric value obtained by parsing `calculateQuantity`'s string (this
is what `PlaceFuturesOrder` validates as `parsedQty`). -/
def calculateQuantityVal (size price : ℚ) (leverage : ℤ) (prec : ℕ) (stepSize : ℚ) :
    ℚ :=
  let c := calcQty size price leverage prec stepSize
  if fmtRound c.2 prec = 0 then fmtRound c.1 prec else fmtRound c.2 prec

/-- `x` is a positive integer multiple of `step`. -/
def isPosMultipleOf (x step : ℚ) : Prop := ∃ m : ℤ, 1 ≤ m ∧ x = (m : ℚ) * step

def s0022 : String := "0.022"

def s0000 : String := "0.000"

/-! ## Order execution: `PlaceFuturesOrder` and the trade handler
Source: `src/internal/binance/binance_advanced_funcs.go` lines 436-582
(`PlaceFuturesOrder`, `placeStopLoss`, `placeTakeProfit`) and
`src/internal/api/handler.go` lines 32-202 (`TradeHandler`,
`validateTradeParams`). -/

/-- `SymbolInfo` (part_006 lines 383-397) restricted to the fields
`PlaceFuturesOrder` reads; the string-valued filter fields are modelled by
their `strconv.ParseFloat` values. -/
structure SymbolInfo where
  pricePrecision : ℕ
  quantityPrecision : ℕ
  minQuantity : ℚ
  maxQuantity : ℚ
  stepSize : ℚ
  minNotional : ℚ
deriving DecidableEq

/-- `models.Trade` (src/internal/models/trade.go lines 4-27). -/
structure Trade where
  id : String
  userId : String
  symbol : String
  side : String
  orderType : String
  marginType : String
  entryPrice : ℚ
  executedPrice : ℚ
  stopLoss : ℚ
  takeProfit : ℚ
  leverage : ℤ
  size : ℚ
  status : String
  orderId : ℤ
  slOrderId : ℤ
  tpOrderId : ℤ
  error : String
  createdAt : ℤ
  executedAt : ℤ
  closedAt : ℤ
  pnl : ℚ
deriving DecidableEq

/-- The distinct `fmt.Errorf` failure exits of `PlaceFuturesOrder`
(lines 440-549). -/
inductive OrderError where
  | symbolInfoFailed
  | leverageFailed
  | zeroQuantity
  | belowMinQuantity
  | aboveMaxQuantity
  | belowMinNotional
  | entryOrderFailed
deriving DecidableEq

/-- Short stand-ins for the `fmt.Errorf` reason strings recorded in
`Trade.Error`. -/
def errMessage : OrderError → String
  | .symbolInfoFailed => "failed to get symbol info"
  | .leverageFailed => "failed to set leverage"
  | .zeroQuantity => "calculated quantity is zero"
  | .belowMinQuantity => "quantity is below minimum"
  | .aboveMaxQuantity => "quantity exceeds maximum"
  | .belowMinNotional => "order value is below minimum notional"
  | .entryOrderFailed => "failed to place order"

/-- The remote venue calls `Client` can make on this code path (the `Client`
also has a `CancelOrder` service, included so its absence is expressible). -/
inductive VenueCall where
  | getExchangeInfo
  | changeMarginType
  | changeLeverage
  | getPrice
  | createEntryOrder
  | createStopLossOrder
  | createTakeProfitOrder
  | cancelOrder
deriving DecidableEq

/-- The fill data of a successfully created entry order. -/
structure EntryFill where
  orderId : ℤ
  avgPrice : ℚ
  executedQty : String
  status : String
deriving DecidableEq

/-- Outcomes of the remote calls `PlaceFuturesOrder` may perform: `none`
represents the call returning an error. -/
structure VenueEnv where
  symbolInfo : Option SymbolInfo
  marginTypeOk : Bool
  leverageOk : Bool
  currentPrice : Option ℚ
  entryOrder : Option EntryFill
  slOrder : Option ℤ
  tpOrder : Option ℤ
deriving DecidableEq

/-- `OrderResult` (binance_advanced_funcs.go lines 392-399): `slOrderId` and
`tpOrderId` keep their Go zero value `0` when the corresponding leg failed. -/
structure OrderResult where
  orderId : ℤ
  avgPrice : ℚ
  executedQty : String
  status : String
  slOrderId : ℤ
  tpOrderId : ℤ
deriving DecidableEq

/-- Quantity validations of `PlaceFuturesOrder` steps 3.2-3.5
(lines 495-523), in source order. -/
def preflightCheck (parsedQty priceForCalc minQty maxQty minNotional : ℚ) :
    Option OrderError :=
  if parsedQty = 0 then some .zeroQuantity
  else if parsedQty < minQty then some .belowMinQuantity
  else if 0 < maxQty ∧ maxQty < parsedQty then some .aboveMaxQuantity
  else if parsedQty * priceForCalc < minNotional then some .belowMinNotional
  else none

/-- Is the trade a market order (empty or `"MARKET"` order type,
line 481)? -/
def isMarketOrder (trade : Trade) : Bool :=
  trade.orderType = sEmpty ∨ trade.orderType = sMARKET

/-- The reference price used for quantity calculation (lines 479-489): the
live price for market orders when available, else the requested entry
price. -/
def priceForCalc (trade : Trade) (env : VenueEnv) : ℚ :=
  if isMarketOrder trade then
    match env.currentPrice with
    | some p => p
    | none => trade.entryPrice
  else trade.entryPrice

/-- The venue calls made before any order placement: symbol info, margin
type, leverage, and (for market orders) the price fetch. -/
def setupCalls (trade : Trade) : List VenueCall :=
  if isMarketOrder trade then
    [.getExchangeInfo, .changeMarginType, .changeLeverage, .getPrice]
  else
    [.getExchangeInfo, .changeMarginType, .changeLeverage]

/-- The parsed normalized quantity `parsedQty` (lines 492-496). -/
def parsedQtyOf (trade : Trade) (env : VenueEnv) (info : SymbolInfo) : ℚ :=
  calculateQuantityVal trade.size (priceForCalc trade env) trade.leverage
    info.quantityPrecision info.stepSize

/-- The quantity validations of steps 3.2-3.5 applied to a trade. -/
def preflightOf (trade : Trade) (env : VenueEnv) (info : SymbolInfo) :
    Option OrderError :=
  preflightCheck (parsedQtyOf trade env info) (priceForCalc trade env)
    info.minQuantity info.maxQuantity info.minNotional

/-- The `OrderResult` assembled after a successful entry (lines 554-579):
each protective leg's order id is recorded only when its placement
succeeded, otherwise it stays at the Go zero value 0. -/
def attachLegs (fill : EntryFill) (sl tp : Option ℤ) : OrderResult :=
  { orderId := fill.orderId
    avgPrice := fill.avgPrice
    executedQty := fill.executedQty
    status := fill.status
    slOrderId := sl.getD 0
    tpOrderId := tp.getD 0 }

/-- `PlaceFuturesOrder` (lines 436-582).  Returns the result or error
together with the ordered list of venue calls performed.  The margin-type
call's outcome is ignored by the source (both branches only log, line
457-468); a `GetPrice` failure falls back to the requested entry price
(line 484); a failed stop-loss or take-profit leg is logged and leaves the
corresponding order id at 0, never cancelling the entry (lines 561-579). -/
def PlaceFuturesOrder (trade : Trade) (env : VenueEnv) :
    Except OrderError OrderResult × List VenueCall :=
  match env.symbolInfo with
  | none => (.error .symbolInfoFailed, [.getExchangeInfo])
  | some info =>
    if !env.leverageOk then
      (.error .leverageFailed, [.getExchangeInfo, .changeMarginType, .changeLeverage])
    else
      match preflightOf trade env info with
      | some e => (.error e, setupCalls trade)
      | none =>
        match env.entryOrder with
        | none => (.error .entryOrderFailed, setupCalls trade ++ [.createEntryOrder])
        | some fill =>
          (.ok (attachLegs fill env.slOrder env.tpOrder),
            setupCalls trade ++
              [.createEntryOrder, .createStopLossOrder, .createTakeProfitOrder])

/-- `models.TradeRequest` (trade.go lines 29-41), after the JSON binding
step has succeeded. -/
structure TradeRequest where
  userId : String
  symbol : String
  side : String
  entryPrice : ℚ
  stopLoss : ℚ
  takeProfit : ℚ
  leverage : ℤ
  size : ℚ
  orderType : String
  marginType : String
deriving DecidableEq

def msgSide : String := "side must be BUY or SELL"

def msgEntry : String := "entry price must be greater than 0"

def msgSLBuy : String := "stop loss must be less than entry price for BUY"

def msgTPBuy : String := "take profit must be greater than entry price for BUY"

def msgSLSell : String := "stop loss must be greater than entry price for SELL"

def msgTPSell : String := "take profit must be less than entry price for SELL"

/-- `validateTradeParams` (handler.go lines 176-202): `none` = valid. -/
def validateTradeParams (req : TradeRequest) : Option String :=
  if req.side ≠ sBUY ∧ req.side ≠ sSELL then some msgSide
  else if req.entryPrice ≤ 0 then some msgEntry
  else if req.side = sBUY then
    if req.entryPrice ≤ req.stopLoss then some msgSLBuy
    else if req.takeProfit ≤ req.entryPrice then some msgTPBuy
    else none
  else
    if req.stopLoss ≤ req.entryPrice then some msgSLSell
    else if req.entryPrice ≤ req.takeProfit then some msgTPSell
    else none

/-- The PENDING trade record `TradeHandler` creates from a validated request
(handler.go lines 62-74).  `OrderType` and `MarginType` are *not* copied from
the request, so they keep their zero value `""`. -/
def mkPendingTrade (req : TradeRequest) (tradeId : String) (now : ℤ) : Trade :=
  { id := tradeId
    userId := req.userId
    symbol := req.symbol
    side := req.side
    orderType := sEmpty
    marginType := sEmpty
    entryPrice := req.entryPrice
    executedPrice := 0
    stopLoss := req.stopLoss
    takeProfit := req.takeProfit
    leverage := req.leverage
    size := req.size
    status := stPENDING
    orderId := 0
    slOrderId := 0
    tpOrderId := 0
    error := sEmpty
    createdAt := now
    executedAt := 0
    closedAt := 0
    pnl := 0 }

/-- Observable outcome of one `TradeHandler` request. -/
structure HandlerResult where
  httpStatus : ℕ
  success : Bool
  savedTrade : Option Trade
  monitorStarted : Bool
  venueCalls : List VenueCall
deriving DecidableEq

/-- `TradeHandler` (handler.go lines 32-123) after a successful JSON bind:
validation, trade creation, `PlaceFuturesOrder`, persistence and monitor
start.  `savedTrade` is the record passed to `fb.SaveTrade` (`none` when the
request is rejected before placement; the store itself is assumed to accept
the write). -/
def TradeHandler (req : TradeRequest) (env : VenueEnv) (tradeId : String) (now : ℤ) :
    HandlerResult :=
  match validateTradeParams req with
  | some _ =>
    { httpStatus := 400, success := false, savedTrade := none
      monitorStarted := false, venueCalls := [] }
  | none =>
    let trade := mkPendingTrade req tradeId now
    match PlaceFuturesOrder trade env with
    | (.error e, calls) =>
      { httpStatus := 500, success := false
        savedTrade := some { trade with status := stFAILED, error := errMessage e }
        monitorStarted := false, venueCalls := calls }
    | (.ok r, calls) =>
      { httpStatus := 200, success := true
        savedTrade := some { trade with
          status := stACTIVE, orderId := r.orderId
          executedPrice := r.avgPrice, executedAt := now }
        monitorStarted := true, venueCalls := calls }

/-! ## Position monitor
Source: `src/internal/binance/binance_advanced_funcs.go`, `MonitorTrade`
(lines 721-761). -/

/-- One tick of the monitor loop: either the status query errors, or it
returns an order status string at time `now`. -/
inductive Poll where
  | err
  | ok (status : String) (now : ℤ)
deriving DecidableEq

/-- Outcome of one loop iteration of `MonitorTrade` (lines 730-760): updated
trade, whether `fb.UpdateTrade` was called, and whether the loop `return`s. -/
structure MonitorStep where
  trade : Trade
  persisted : Bool
  stop : Bool
deriving DecidableEq

/-- One iteration of `MonitorTrade`'s ticker loop: a query error just
continues; a status other than NEW/PARTIALLY_FILLED updates `status` and
`closedAt` and persists; the loop returns only on FILLED or CANCELED. -/
def monitorStep (t : Trade) : Poll → MonitorStep
  | .err => { trade := t, persisted := false, stop := false }
  | .ok st now =>
    if st ≠ stNEW ∧ st ≠ stPARTIALLY_FILLED then
      { trade := { t with status := st, closedAt := now }
        persisted := true
        stop := if st = stFILLED ∨ st = stCANCELED then true else false }
    else { trade := t, persisted := false, stop := false }

/-- Run `MonitorTrade` against a finite window of poll outcomes, stopping
early when an iteration returns.  Yields (polls performed, persisted updates,
final trade). -/
def monitorRun (t : Trade) : List Poll → ℕ × ℕ × Trade
  | [] => (0, 0, t)
  | p :: ps =>
    let s := monitorStep t p
    if s.stop then (1, if s.persisted then 1 else 0, s.trade)
    else
      let r := monitorRun s.trade ps
      (r.1 + 1, (if s.persisted then 1 else 0) + r.2.1, r.2.2)

/-! ## Concrete inputs used by counterexamples and witnesses -/

def usr1 : String := "user1"

def symBTC : String := "BTCUSDT"

def tid0 : String := "trade-1"

/-- BTCUSDT-like rules: price precision 2, quantity precision 3, min
quantity 0.001, no max, step 0.001, min notional 100. -/
def infoStd : SymbolInfo :=
  { pricePrecision := 2, quantityPrecision := 3, minQuantity := 1/1000
    maxQuantity := 0, stepSize := 1/1000, minNotional := 100 }

/-- Rules as above but without a minimum quantity. -/
def infoNoMin : SymbolInfo :=
  { pricePrecision := 2, quantityPrecision := 3, minQuantity := 0
    maxQuantity := 0, stepSize := 1/1000, minNotional := 100 }

/-- The spec's rejection scenario: size 1 USDT at 1x leverage. -/
def reqSmall : TradeRequest :=
  { userId := usr1, symbol := symBTC, side := sBUY, entryPrice := 50000
    stopLoss := 49000, takeProfit := 52000, leverage := 1, size := 1
    orderType := sEmpty, marginType := sEmpty }

def envSmall : VenueEnv :=
  { symbolInfo := some infoStd, marginTypeOk := true, leverageOk := true
    currentPrice := some 50000
    entryOrder := some { orderId := 11, avgPrice := 50000, executedQty := sEmpty, status := stNEW }
    slOrder := some 12, tpOrder := some 13 }

/-- The spec's acceptance scenario: size 100 USDT at 10x leverage. -/
def reqOk : TradeRequest :=
  { userId := usr1, symbol := symBTC, side := sBUY, entryPrice := 45000
    stopLoss := 44000, takeProfit := 46000, leverage := 10, size := 100
    orderType := sEmpty, marginType := sEmpty }

def fillOk : EntryFill :=
  { orderId := 123, avgPrice := 45000, executedQty := s0022, status := stFILLED }

/-- Entry succeeds, stop-loss placement fails, take-profit succeeds. -/
def envSlFail : VenueEnv :=
  { symbolInfo := some infoNoMin, marginTypeOk := true, leverageOk := true
    currentPrice := some 45000, entryOrder := some fillOk
    slOrder := none, tpOrder := some 456 }

/-- An invalid request: BUY with stop loss above the entry price. -/
def reqInvalid : TradeRequest :=
  { userId := usr1, symbol := symBTC, side := sBUY, entryPrice := 100
    stopLoss := 150, takeProfit := 200, leverage := 1, size := 10
    orderType := sEmpty, marginType := sEmpty }

/-! ## Theorems -/

lemma closed_ne_open : ¬ (csClosed = csOpen) := by decide

lemma halfOpen_ne_open : ¬ (csHalfOpen = csOpen) := by decide

lemma closed_ne_halfOpen : ¬ (csClosed = csHalfOpen) := by decide

/-- Helper: a closed breaker whose failure budget is exactly exhausted by a
run of consecutive failures ends up OPEN with `failures = maxFailures`. -/
lemma runFails_opens : ∀ (ts : List ℚ) (cb : CircuitBreaker),
    cb.state = csClosed → cb.failures + ts.length = cb.maxFailures → ts ≠ [] →
    (runFails cb ts).state = csOpen ∧ (runFails cb ts).failures = cb.maxFailures := by
  intro ts
  induction ts with
  | nil => intro cb _ _ h; exact absurd rfl h
  | cons t ts ih =>
    intro cb hs hlen _
    by_cases hmax : cb.maxFailures ≤ cb.failures + 1
    · have hts : ts = [] := by
        cases ts with
        | nil => rfl
        | cons u us => simp only [List.length_cons] at hlen; omega
      subst hts
      have hfail : cb.failures + 1 = cb.maxFailures := by
        simpa using hlen
      have hstep : (cb.Execute t true).cb =
          { cb with failures := cb.failures + 1, lastFailureTime := t, state := csOpen } := by
        simp [CircuitBreaker.Execute, hs, closed_ne_open, closed_ne_halfOpen, hmax]
      constructor
      · simp [runFails, hstep]
      · simp [runFails, hstep, hfail]
    · have hstep : (cb.Execute t true).cb =
          { cb with failures := cb.failures + 1, lastFailureTime := t } := by
        simp [CircuitBreaker.Execute, hs, closed_ne_open, closed_ne_halfOpen, hmax]
      have hne : ts ≠ [] := by
        cases ts with
        | nil => simp only [List.length_cons, List.length_nil] at hlen; omega
        | cons u us => simp
      have hrec := ih { cb with failures := cb.failures + 1, lastFailureTime := t }
        hs (by simp only [List.length_cons] at hlen ⊢; omega) hne
      simpa [runFails, hstep] using hrec

/-- C5: lifecycle of the circuit breaker (part_009 lines 292-337).
(a) a fresh breaker tripped by exactly `maxFailures ≥ 1` consecutive
failures is OPEN; (b) while OPEN and within `resetTimeout` of the last
failure a call is rejected untouched and the operation is not invoked;
(c) the first call strictly after `resetTimeout` does invoke the operation
(the HALF_OPEN trial); (d) whenever an invoked operation succeeds the
failure counter is reset to zero. -/
theorem circuitBreaker_lifecycle :
    (∀ (m : ℕ) (timeout : ℚ) (ts : List ℚ), 1 ≤ m → ts.length = m →
      (runFails (NewCircuitBreaker m timeout) ts).state = csOpen ∧
      (runFails (NewCircuitBreaker m timeout) ts).failures = m) ∧
    (∀ (cb : CircuitBreaker) (now : ℚ) (f : Bool), cb.state = csOpen →
      now - cb.lastFailureTime ≤ cb.resetTimeout →
      cb.Execute now f = { cb := cb, invoked := false, isError := true }) ∧
    (∀ (cb : CircuitBreaker) (now : ℚ) (f : Bool), cb.state = csOpen →
      cb.resetTimeout < now - cb.lastFailureTime →
      (cb.Execute now f).invoked = true) ∧
    (∀ (cb : CircuitBreaker) (now : ℚ),
      (cb.Execute now false).invoked = true →
      ((cb.Execute now false).cb).failures = 0) := by
  refine ⟨?_, ?_, ?_, ?_⟩
  · intro m timeout ts hm hlen
    have := runFails_opens ts (NewCircuitBreaker m timeout)
      rfl (by simpa [NewCircuitBreaker] using hlen)
      (by intro h; subst h; simp at hlen; omega)
    simpa [NewCircuitBreaker] using this
  · intro cb now f hs hle
    have hcond : ¬ (cb.state = csOpen ∧ now - cb.lastFailureTime > cb.resetTimeout) := by
      intro ⟨_, hgt⟩; exact absurd hgt (not_lt.mpr hle)
    simp only [CircuitBreaker.Execute, if_neg hcond, if_pos hs]
  · intro cb now f hs hgt
    have hcond : cb.state = csOpen ∧ now - cb.lastFailureTime > cb.resetTimeout :=
      ⟨hs, hgt⟩
    cases f <;>
      simp [CircuitBreaker.Execute, hcond, halfOpen_ne_open]
  · intro cb now
    by_cases h1 : cb.state = csOpen ∧ now - cb.lastFailureTime > cb.resetTimeout
    · intro _
      simp [CircuitBreaker.Execute, h1, halfOpen_ne_open]
    · by_cases h2 : cb.state = csOpen
      · intro h
        exfalso
        have hX : ¬ (now - cb.lastFailureTime > cb.resetTimeout) := fun hx => h1 ⟨h2, hx⟩
        simp [CircuitBreaker.Execute, h2, hX] at h
      · intro _
        by_cases h3 : cb.state = csHalfOpen <;>
          simp [CircuitBreaker.Execute, h1, h2, h3, halfOpen_ne_open]

/-- Witness for C5 at concrete inputs: a breaker with `maxFailures = 2`,
`resetTimeout = 10`. -/
theorem circuitBreaker_lifecycle_witness :
    ((runFails (NewCircuitBreaker 2 10) [0, 0]).state = csOpen ∧
      (runFails (NewCircuitBreaker 2 10) [0, 0]).failures = 2) ∧
    (CircuitBreaker.Execute ⟨2, 10, 2, 0, csOpen⟩ 5 true =
      { cb := ⟨2, 10, 2, 0, csOpen⟩, invoked := false, isError := true }) ∧
    ((CircuitBreaker.Execute ⟨2, 10, 2, 0, csOpen⟩ 11 true).invoked = true) ∧
    (((CircuitBreaker.Execute (NewCircuitBreaker 2 10) 3 false).cb).failures = 0) :=
  ⟨circuitBreaker_lifecycle.1 2 10 [0, 0] (by norm_num) (by simp),
   circuitBreaker_lifecycle.2.1 ⟨2, 10, 2, 0, csOpen⟩ 5 true rfl (by norm_num),
   circuitBreaker_lifecycle.2.2.1 ⟨2, 10, 2, 0, csOpen⟩ 11 true rfl (by norm_num),
   circuitBreaker_lifecycle.2.2.2 (NewCircuitBreaker 2 10) 3
     (by norm_num [CircuitBreaker.Execute, NewCircuitBreaker, closed_ne_open,
       closed_ne_halfOpen])⟩

/-- C4 counterexample: with `maxFailures = 2` (≥ 1), a reachable HALF_OPEN
breaker that observes a failing operation does **not** return to OPEN: after
two failures at t=0,1 the breaker is OPEN, and the HALF_OPEN trial at t=12
fails, yet the resulting state is still `half-open` (the transition to OPEN
only happens once `failures` reaches `maxFailures` again, and entering
HALF_OPEN zeroed the counter). -/
theorem halfOpen_failure_cex :
    (runFails (NewCircuitBreaker 2 10) [0, 1]).state = csOpen ∧
    (((runFails (NewCircuitBreaker 2 10) [0, 1]).Execute 12 true).cb).state = csHalfOpen := by
  norm_num [runFails, CircuitBreaker.Execute, NewCircuitBreaker,
    closed_ne_open, closed_ne_halfOpen, halfOpen_ne_open]

/-- C4 (amended): for a HALF_OPEN breaker, a failing trial returns the state
to OPEN precisely when the incremented failure counter reaches `maxFailures`
(always the case when `maxFailures = 1`, since entering HALF_OPEN zeroes the
counter, but not for larger `maxFailures`); a successful trial resets the
breaker to CLOSED with the failure counter zeroed. -/
theorem halfOpen_transition (cb : CircuitBreaker) (now : ℚ)
    (h : cb.state = csHalfOpen) :
    (cb.maxFailures ≤ cb.failures + 1 → ((cb.Execute now true).cb).state = csOpen) ∧
    ((cb.Execute now false).cb).state = csClosed ∧
    ((cb.Execute now false).cb).failures = 0 := by
  refine ⟨?_, ?_, ?_⟩
  · intro hm
    simp [CircuitBreaker.Execute, h, halfOpen_ne_open, hm]
  · simp [CircuitBreaker.Execute, h, halfOpen_ne_open]
  · simp [CircuitBreaker.Execute, h, halfOpen_ne_open]

/-- Witness for the amended C4 at a concrete HALF_OPEN breaker with
`maxFailures = 1`. -/
theorem halfOpen_transition_witness :
    ((CircuitBreaker.Execute ⟨1, 10, 0, 0, csHalfOpen⟩ 5 true).cb).state = csOpen ∧
    ((CircuitBreaker.Execute ⟨1, 10, 0, 0, csHalfOpen⟩ 5 false).cb).state = csClosed ∧
    ((CircuitBreaker.Execute ⟨1, 10, 0, 0, csHalfOpen⟩ 5 false).cb).failures = 0 :=
  ⟨(halfOpen_transition ⟨1, 10, 0, 0, csHalfOpen⟩ 5 rfl).1 (by norm_num),
   (halfOpen_transition ⟨1, 10, 0, 0, csHalfOpen⟩ 5 rfl).2.1,
   (halfOpen_transition ⟨1, 10, 0, 0, csHalfOpen⟩ 5 rfl).2.2⟩

lemma retryable_timeout : isRetryableError patTimeout = true := by decide

/-- Invocation bound for the retry loop: at most `left + 1` calls. -/
lemma retryAux_count (op : ℕ → Option String) (maxR : ℕ) (factor maxB : ℚ) :
    ∀ (left attempt : ℕ) (backoff : ℚ),
      (retryAux op maxR factor maxB left attempt backoff).2.1 ≤ left + 1 := by
  intro left
  induction left with
  | zero =>
    intro attempt backoff
    simp only [retryAux]
    cases h : op attempt with
    | none => simp
    | some e => by_cases hr : isRetryableError e <;> simp [hr]
  | succ l ih =>
    intro attempt backoff
    simp only [retryAux]
    cases h : op attempt with
    | none => simp
    | some e =>
      by_cases hr : isRetryableError e
      · have := ih (attempt + 1) (min (backoff * factor) maxB)
        simp only [hr, if_true]
        omega
      · simp [hr]

/-- One capped multiplication step commutes with the closed form
`min (a · fᵏ⁺¹) M`. -/
lemma min_pow_step (a M f : ℚ) (hM : 0 ≤ M) (hf : 1 ≤ f) (k : ℕ) :
    min (min (a * f) M * f ^ k) M = min (a * f ^ (k + 1)) M := by
  have hfk : (1 : ℚ) ≤ f ^ k := one_le_pow₀ hf
  rcases le_total (a * f) M with h | h
  · rw [min_eq_left h]
    have he : a * f * f ^ k = a * f ^ (k + 1) := by ring
    rw [he]
  · rw [min_eq_right h]
    have h1 : M ≤ M * f ^ k := le_mul_of_one_le_right hM hfk
    have h2 : M * f ^ k ≤ a * f * f ^ k :=
      mul_le_mul_of_nonneg_right h (by positivity)
    have h3 : M ≤ a * f ^ (k + 1) := by
      have he : a * f ^ (k + 1) = a * f * f ^ k := by ring
      rw [he]; exact le_trans h1 h2
    rw [min_eq_right h1, min_eq_right h3]

/-- Closed form of the recorded sleeps: when the starting backoff is within
the cap and the factor is ≥ 1, the `k`-th sleep is `min (b0 · fᵏ) maxB`. -/
lemma retryAux_sleeps (op : ℕ → Option String) (maxR : ℕ) (factor maxB : ℚ)
    (hf : 1 ≤ factor) :
    ∀ (left attempt : ℕ) (b0 : ℚ), 0 ≤ b0 → b0 ≤ maxB →
      ∀ (k : ℕ) (b : ℚ),
        ((retryAux op maxR factor maxB left attempt b0).2.2).get? k = some b →
        b = min (b0 * factor ^ k) maxB := by
  intro left
  induction left with
  | zero =>
    intro attempt b0 _ _ k b hget
    simp only [retryAux] at hget
    cases h : op attempt with
    | none => rw [h] at hget; simp at hget
    | some e =>
      rw [h] at hget
      by_cases hr : isRetryableError e <;> simp [hr] at hget
  | succ l ih =>
    intro attempt b0 hb0 hbM k b hget
    simp only [retryAux] at hget
    cases h : op attempt with
    | none => rw [h] at hget; simp at hget
    | some e =>
      rw [h] at hget
      by_cases hr : isRetryableError e
      · simp only [hr, if_true] at hget
        cases k with
        | zero =>
          simp only [List.get?] at hget
          have hb : b = b0 := by injection hget with hb; exact hb.symm
          rw [hb, pow_zero, mul_one, min_eq_left hbM]
        | succ k =>
          simp only [List.get?] at hget
          have hnb0 : 0 ≤ min (b0 * factor) maxB :=
            le_min (mul_nonneg hb0 (by linarith)) (le_trans hb0 hbM)
          have hnbM : min (b0 * factor) maxB ≤ maxB := min_le_right _ _
          have hrec := ih (attempt + 1) (min (b0 * factor) maxB) hnb0 hnbM k b hget
          rw [hrec]
          exact min_pow_step b0 maxB factor (le_trans hb0 hbM) hf k
      · simp [hr] at hget

/-- If every attempt up to and including `attempt + left` fails with a
retryable error, the loop ends in the `max retries exceeded` wrapping of the
error of the final attempt. -/
lemma retryAux_exhaust (op : ℕ → Option String) (maxR : ℕ) (factor maxB : ℚ) :
    ∀ (left attempt : ℕ) (b0 : ℚ),
      (∀ i, attempt ≤ i → i ≤ attempt + left →
        ∃ s, op i = some s ∧ isRetryableError s = true) →
      ∃ s, op (attempt + left) = some s ∧
        (retryAux op maxR factor maxB left attempt b0).1 = .exhausted maxR s := by
  intro left
  induction left with
  | zero =>
    intro attempt b0 hall
    obtain ⟨s, hs, hr⟩ := hall attempt le_rfl (by omega)
    refine ⟨s, by simpa using hs, ?_⟩
    simp [retryAux, hs, hr]
  | succ l ih =>
    intro attempt b0 hall
    obtain ⟨s, hs, hr⟩ := hall attempt le_rfl (by omega)
    obtain ⟨s', hs', hres⟩ := ih (attempt + 1) (min (b0 * factor) maxB)
      (fun i hi1 hi2 => hall i (by omega) (by omega))
    refine ⟨s', ?_, ?_⟩
    · rw [show attempt + (l + 1) = attempt + 1 + l by omega]
      exact hs'
    · simp [retryAux, hs, hr, hres]

/-- C6 (amended): for every operation and retry configuration whose
`initialBackoff` is non-negative and does not already exceed `maxBackoff`,
and whose `backoffFactor` is ≥ 1: (i) the operation is invoked at most
`maxRetries + 1` times; (ii) the `k`-th (0-based) backoff slept between
attempt `k+1` and attempt `k+2` is `min (initialBackoff · factorᵏ, maxBackoff)`;
(iii) if every allowed attempt fails with a retryable error, the result is
the last error wrapped with the attempt count `maxRetries`.
(The claim as frozen is falsified when `initialBackoff > maxBackoff`: the
first sleep happens before the cap is ever applied — see the
counterexample.) -/
theorem executeWithRetry_spec (op : ℕ → Option String) (cfg : RetryConfig)
    (h0 : 0 ≤ cfg.initialBackoff) (h1 : cfg.initialBackoff ≤ cfg.maxBackoff)
    (h2 : 1 ≤ cfg.backoffFactor) :
    (ExecuteWithRetry op (some cfg)).2.1 ≤ cfg.maxRetries + 1 ∧
    (∀ k b, ((ExecuteWithRetry op (some cfg)).2.2).get? k = some b →
      b = min (cfg.initialBackoff * cfg.backoffFactor ^ k) cfg.maxBackoff) ∧
    (∀ s, op cfg.maxRetries = some s →
      (∀ i, i ≤ cfg.maxRetries → ∃ s', op i = some s' ∧ isRetryableError s' = true) →
      (ExecuteWithRetry op (some cfg)).1 = .exhausted cfg.maxRetries s) := by
  refine ⟨?_, ?_, ?_⟩
  · simpa [ExecuteWithRetry] using
      retryAux_count op cfg.maxRetries cfg.backoffFactor cfg.maxBackoff
        cfg.maxRetries 0 cfg.initialBackoff
  · intro k b h
    exact retryAux_sleeps op cfg.maxRetries cfg.backoffFactor cfg.maxBackoff h2
      cfg.maxRetries 0 cfg.initialBackoff h0 h1 k b
      (by simpa [ExecuteWithRetry] using h)
  · intro s hs hall
    obtain ⟨s', hs', hres⟩ :=
      retryAux_exhaust op cfg.maxRetries cfg.backoffFactor cfg.maxBackoff
        cfg.maxRetries 0 cfg.initialBackoff (fun i _ hi => hall i (by omega))
    have hss : s' = s := by
      rw [show (0 : ℕ) + cfg.maxRetries = cfg.maxRetries by omega, hs] at hs'
      injection hs' with h
      exact h.symm
    subst hss
    simpa [ExecuteWithRetry] using hres

/-- Witness for the amended C6 at `DefaultRetryConfig` (3 retries, 1s
initial, 30s cap, factor 2) and an always-timing-out operation: at most 4
invocations, second sleep `2 = min (1·2¹) 30`, and the exhausted wrapping
carries attempt count 3. -/
theorem executeWithRetry_spec_witness :
    (ExecuteWithRetry (fun _ => some patTimeout) (some DefaultRetryConfig)).2.1 ≤ 3 + 1 ∧
    (2 : ℚ) = min ((1 : ℚ) * 2 ^ (1 : ℕ)) 30 ∧
    (ExecuteWithRetry (fun _ => some patTimeout) (some DefaultRetryConfig)).1 =
      .exhausted 3 patTimeout := by
  have hs := executeWithRetry_spec (fun _ => some patTimeout) DefaultRetryConfig
    (by norm_num [DefaultRetryConfig]) (by norm_num [DefaultRetryConfig])
    (by norm_num [DefaultRetryConfig])
  refine ⟨hs.1, ?_, ?_⟩
  · have hlist : (ExecuteWithRetry (fun _ => some patTimeout)
        (some DefaultRetryConfig)).2.2 = [1, 2, 4] := by
      norm_num [ExecuteWithRetry, retryAux, DefaultRetryConfig, retryable_timeout]
    exact hs.2.1 1 2 (by rw [hlist]; rfl)
  · exact hs.2.2 patTimeout rfl (fun i _ => ⟨patTimeout, rfl, retryable_timeout⟩)

/-- C6 counterexample: with `initialBackoff = 60 > maxBackoff = 30`,
`factor = 2`, `maxRetries = 1` and an always-timing-out operation, the sleep
between attempt 1 and attempt 2 is `60`, but the claimed formula
`min (initialBackoff · factor⁰, maxBackoff)` gives `30`: the first backoff is
slept before the cap is ever applied. -/
theorem retry_backoff_cap_cex :
    (ExecuteWithRetry (fun _ => some patTimeout)
      (some ⟨1, 60, 30, 2⟩)).2.2 = [60] ∧
    min ((60 : ℚ) * 2 ^ (0 : ℕ)) 30 = 30 ∧ ¬ ((60 : ℚ) = 30) := by
  refine ⟨?_, by norm_num, by norm_num⟩
  norm_num [ExecuteWithRetry, retryAux, retryable_timeout]

lemma bannedTimeout_class : HandleBinanceError errBannedTimeout = .ipBanned := by decide

lemma bannedTimeout_retryable : isRetryableError errBannedTimeout = true := by decide

lemma pat418_class : HandleBinanceError pat418 = .ipBanned := by decide

lemma pat418_not_retryable : isRetryableError pat418 = false := by decide

/-- C7 counterexample: the error text `"418 timeout"` is classified by
`HandleBinanceError` as `ipBanned` (whose `Retry` flag is `false`), yet
`ExecuteWithRetry` (which decides retryability by the independent substring
check `isRetryableError`) retries it: with `maxRetries = 2` the operation is
invoked 3 times, i.e. further attempts are made after the Banned error was
first observed. -/
theorem banned_error_retried_cex :
    HandleBinanceError errBannedTimeout = .ipBanned ∧
    BinanceKind.retryFlag (HandleBinanceError errBannedTimeout) = some false ∧
    (ExecuteWithRetry (fun _ => some errBannedTimeout)
      (some ⟨2, 1, 30, 2⟩)).2.1 = 3 := by
  refine ⟨bannedTimeout_class, by rw [bannedTimeout_class]; rfl, ?_⟩
  norm_num [ExecuteWithRetry, retryAux, bannedTimeout_retryable]

lemma hasPre_map (f : Char → Char) :
    ∀ (l sub : List Char), hasPre l sub = true → hasPre (l.map f) (sub.map f) = true := by
  intro l
  induction l with
  | nil =>
    intro sub h
    cases sub with
    | nil => simp [hasPre]
    | cons d ds => simp [hasPre] at h
  | cons c cs ih =>
    intro sub h
    cases sub with
    | nil => simp [hasPre]
    | cons d ds =>
      simp only [hasPre, Bool.and_eq_true, decide_eq_true_eq] at h
      simp only [List.map_cons, hasPre, Bool.and_eq_true, decide_eq_true_eq]
      exact ⟨by rw [h.1], ih ds h.2⟩

lemma hasSub_map (f : Char → Char) :
    ∀ (l sub : List Char), hasSub l sub = true → hasSub (l.map f) (sub.map f) = true := by
  intro l
  induction l with
  | nil =>
    intro sub h
    cases sub with
    | nil => simp [hasSub]
    | cons d ds => simp [hasSub, List.isEmpty] at h
  | cons c cs ih =>
    intro sub h
    simp only [hasSub, Bool.or_eq_true] at h
    simp only [List.map_cons, hasSub, Bool.or_eq_true]
    rcases h with h | h
    · exact Or.inl (by simpa using hasPre_map f (c :: cs) sub h)
    · exact Or.inr (ih sub h)

lemma lower_pat429 : pat429.data.map lowerChar = pat429.data := by decide

/-- Any error text containing `"429"` is retryable. -/
lemma retryable_of_429 (e : String) (h : strContains e pat429 = true) :
    isRetryableError e = true := by
  have : hasSub (lowerStr e) pat429.data = true := by
    have hm := hasSub_map lowerChar e.data pat429.data h
    rwa [lower_pat429] at hm
  simp [isRetryableError, this]

/-- C7 (amended): an error classified as `ipBanned` that additionally matches
none of the transient/rate-limit substrings of `isRetryableError` is treated
as non-retryable: `ExecuteWithRetry` returns it directly after a single
invocation, with no sleeps.  Classification alone does not guarantee this
(see the counterexample): retryability is decided by an independent substring
check, and the `Retry: false` flag of the classified error is never consulted
by the retry loop.  Ordinary rate limiting (`"429"`) is, by contrast,
always retryable. -/
theorem banned_error_not_retried (op : ℕ → Option String) (cfg : RetryConfig)
    (e e429 : String)
    (h0 : op 0 = some e) (hb : HandleBinanceError e = .ipBanned)
    (hr : isRetryableError e = false)
    (h429 : strContains e429 pat429 = true) :
    ExecuteWithRetry op (some cfg) = (.nonRetryable e, 1, []) ∧
    BinanceKind.retryFlag (HandleBinanceError e) = some false ∧
    isRetryableError e429 = true := by
  refine ⟨?_, by rw [hb]; rfl, retryable_of_429 e429 h429⟩
  cases hm : cfg.maxRetries with
  | zero => simp [ExecuteWithRetry, hm, retryAux, h0, hr]
  | succ l => simp [ExecuteWithRetry, hm, retryAux, h0, hr]

/-- Witness for the amended C7: the plain `"418"` error is classified as
`ipBanned` and is not retried (one invocation, no sleeps), while `"429"` is
retryable. -/
theorem banned_error_not_retried_witness :
    ExecuteWithRetry (fun _ => some pat418) (some DefaultRetryConfig) =
      (.nonRetryable pat418, 1, []) ∧
    BinanceKind.retryFlag (HandleBinanceError pat418) = some false ∧
    isRetryableError pat429 = true :=
  banned_error_not_retried (fun _ => some pat418) DefaultRetryConfig pat418 pat429
    rfl pat418_class pat418_not_retryable (by decide)

/-! ## C3, C9: quantity normalization theorems -/

/-- Formatting a value that is exactly representable with `p` decimals is
the identity (no rounding happens). -/
lemma fmtRound_exact (n : ℤ) (p : ℕ) :
    fmtRound ((n : ℚ) / 10 ^ p) p = (n : ℚ) / 10 ^ p := by
  unfold fmtRound
  have h10 : ((10 : ℚ) ^ p) ≠ 0 := by positivity
  have hx : ((n : ℚ) / 10 ^ p) * 10 ^ p = (n : ℚ) := by field_simp
  rw [hx]
  have hfl : ⌊(n : ℚ) + 1/2⌋ = n := by
    rw [Int.floor_int_add]
    norm_num
  rw [hfl]

/-- For a positive step, `calcQty` keeps the step and returns a quantity
that is a positive integer multiple of it (the truncating division always
lands on the step grid, and the clamp enforces at least one step). -/
lemma calcQty_multiple (size price : ℚ) (leverage : ℤ) (prec : ℕ) (stepSize : ℚ)
    (hstep : 0 < stepSize) :
    (calcQty size price leverage prec stepSize).1 = stepSize ∧
    ∃ m : ℤ, 1 ≤ m ∧
      (calcQty size price leverage prec stepSize).2 = (m : ℚ) * stepSize := by
  have hns : ¬ (stepSize ≤ 0) := not_le.mpr hstep
  have hnz : stepSize ≠ 0 := ne_of_gt hstep
  have h1 : (calcQty size price leverage prec stepSize).1 = stepSize := by
    show (if stepSize ≤ 0 then (1 : ℚ) / 10 ^ prec else stepSize) = stepSize
    rw [if_neg hns]
  have h2 : (calcQty size price leverage prec stepSize).2 =
      (if roundToStepSize (rawQuantity size price leverage) stepSize < stepSize
       then stepSize
       else roundToStepSize (rawQuantity size price leverage) stepSize) := by
    show (if roundToStepSize (rawQuantity size price leverage)
            (if stepSize ≤ 0 then (1 : ℚ) / 10 ^ prec else stepSize) <
            (if stepSize ≤ 0 then (1 : ℚ) / 10 ^ prec else stepSize)
          then (if stepSize ≤ 0 then (1 : ℚ) / 10 ^ prec else stepSize)
          else roundToStepSize (rawQuantity size price leverage)
            (if stepSize ≤ 0 then (1 : ℚ) / 10 ^ prec else stepSize)) = _
    rw [if_neg hns]
  have hr : roundToStepSize (rawQuantity size price leverage) stepSize =
      (qtrunc (rawQuantity size price leverage / stepSize + 1/2) : ℚ) * stepSize := by
    rw [roundToStepSize, if_neg hnz]
  refine ⟨h1, ?_⟩
  rw [h2, hr]
  by_cases hlt :
      ((qtrunc (rawQuantity size price leverage / stepSize + 1/2) : ℚ) * stepSize < stepSize)
  · rw [if_pos hlt]
    exact ⟨1, le_rfl, by rw [Int.cast_one, one_mul]⟩
  · rw [if_neg hlt]
    refine ⟨qtrunc (rawQuantity size price leverage / stepSize + 1/2), ?_, rfl⟩
    have hge : stepSize ≤
        (qtrunc (rawQuantity size price leverage / stepSize + 1/2) : ℚ) * stepSize :=
      not_lt.mp hlt
    have h1q : (1 : ℚ) ≤ (qtrunc (rawQuantity size price leverage / stepSize + 1/2) : ℚ) := by
      by_contra hc
      push_neg at hc
      nlinarith
    exact_mod_cast h1q

/-- C3 (amended): whenever the symbol's step size is a positive integer
multiple of `10^(-quantityPrecision)` (i.e., exactly representable at the
quantity precision, as real venue filters are), the parsed normalized
quantity is a positive integer multiple of the step size — in particular it
is never zero, regardless of the raw quantity.  (The claim as frozen is
falsified for steps that are not representable at the precision: formatting
then destroys both the multiple-of-step property and the never-zero
guarantee — see the counterexample.) -/
theorem calculateQuantity_step_multiple (size price : ℚ) (leverage : ℤ)
    (prec : ℕ) (k : ℕ) (hk : 1 ≤ k) :
    isPosMultipleOf
      (calculateQuantityVal size price leverage prec ((k : ℚ) / 10 ^ prec))
      ((k : ℚ) / 10 ^ prec) ∧
    calculateQuantityVal size price leverage prec ((k : ℚ) / 10 ^ prec) ≠ 0 := by
  have hkq : (0 : ℚ) < (k : ℚ) := by exact_mod_cast hk
  have hstep : (0 : ℚ) < (k : ℚ) / 10 ^ prec := by positivity
  obtain ⟨hfst, m, hm, hsnd⟩ :=
    calcQty_multiple size price leverage prec ((k : ℚ) / 10 ^ prec) hstep
  have hq2 : (calcQty size price leverage prec ((k : ℚ) / 10 ^ prec)).2 =
      ((m * k : ℤ) : ℚ) / 10 ^ prec := by
    rw [hsnd]
    push_cast
    ring
  have hparsed :
      fmtRound (calcQty size price leverage prec ((k : ℚ) / 10 ^ prec)).2 prec =
      (calcQty size price leverage prec ((k : ℚ) / 10 ^ prec)).2 := by
    rw [hq2]
    exact fmtRound_exact (m * k) prec
  have hpos : 0 < (calcQty size price leverage prec ((k : ℚ) / 10 ^ prec)).2 := by
    rw [hsnd]
    have hmq : (0 : ℚ) < (m : ℚ) := by exact_mod_cast lt_of_lt_of_le zero_lt_one hm
    exact mul_pos hmq hstep
  have hne :
      ¬ (fmtRound (calcQty size price leverage prec ((k : ℚ) / 10 ^ prec)).2 prec = 0) := by
    rw [hparsed]
    exact ne_of_gt hpos
  constructor
  · refine ⟨m, hm, ?_⟩
    unfold calculateQuantityVal
    simp only [hne, if_false]
    rw [hparsed, hsnd]
  · unfold calculateQuantityVal
    simp only [hne, if_false]
    rw [hparsed]
    exact ne_of_gt hpos

/-- Witness for the amended C3 at the spec's acceptance numbers. -/
theorem calculateQuantity_step_multiple_witness :
    isPosMultipleOf (calculateQuantityVal 100 45000 10 3 ((1 : ℚ) / 10 ^ 3))
      ((1 : ℚ) / 10 ^ 3) ∧
    calculateQuantityVal 100 45000 10 3 ((1 : ℚ) / 10 ^ 3) ≠ 0 := by
  simpa using calculateQuantity_step_multiple 100 45000 10 3 1 le_rfl

/-- C3 counterexample: with step size `0.0003` and quantity precision 3
(a step not representable at the precision), the nonzero raw quantity
`1·1/50000` is normalized to the string `"0.000"`, which parses to `0`:
normalization *does* silently turn a nonzero input into a zero order, and
the result is not a positive multiple of the step. -/
theorem calculateQuantity_zero_cex :
    rawQuantity 1 50000 1 ≠ 0 ∧
    calculateQuantityVal 1 50000 1 3 (3 / 10000) = 0 ∧
    calculateQuantity 1 50000 1 3 (3 / 10000) = s0000 := by
  refine ⟨by norm_num [rawQuantity], ?_, ?_⟩
  · norm_num [calculateQuantityVal, calcQty, rawQuantity, roundToStepSize, qtrunc,
      fmtRound]
  · have hq : calcQty 1 50000 1 3 (3 / 10000) = (3 / 10000, 3 / 10000) := by
      norm_num [calcQty, rawQuantity, roundToStepSize, qtrunc]
    have hz : fmtRound ((3 : ℚ) / 10000) 3 = 0 := by
      norm_num [fmtRound]
    have hm : ⌊(3 / 10000 : ℚ) * 10 ^ 3 + 1 / 2⌋ = 0 := by norm_num
    simp only [calculateQuantity, hq, hz, if_true]
    simp only [goFormat, hm]
    decide

/-- C9: the spec's concrete acceptance scenario.  `size=100, leverage=10,
price=45000, stepSize=0.001, quantityPrecision=3, minNotional=100`: the raw
quantity `1/45 = 0.0222…` normalizes to the string `"0.022"` (value
`0.022`), the notional is `0.022 × 45000 = 990 ≥ 100`, and the preflight
validations accept the order. -/
theorem quantity_scenario_accepted :
    calculateQuantity 100 45000 10 3 (1 / 1000) = s0022 ∧
    calculateQuantityVal 100 45000 10 3 (1 / 1000) = 22 / 1000 ∧
    (22 / 1000 : ℚ) * 45000 = 990 ∧ (100 : ℚ) ≤ 990 ∧
    preflightCheck (calculateQuantityVal 100 45000 10 3 (1 / 1000)) 45000
      (1/1000) 0 100 = none := by
  have hq : calcQty 100 45000 10 3 (1 / 1000) = (1 / 1000, 11 / 500) := by
    norm_num [calcQty, rawQuantity, roundToStepSize, qtrunc]
  have hf : fmtRound ((11 : ℚ) / 500) 3 = 11 / 500 := by
    norm_num [fmtRound]
  have hne : ¬ (fmtRound ((11 : ℚ) / 500) 3 = 0) := by
    rw [hf]; norm_num
  have hval : calculateQuantityVal 100 45000 10 3 (1 / 1000) = 11 / 500 := by
    simp only [calculateQuantityVal, hq]
    rw [if_neg hne, hf]
  refine ⟨?_, by rw [hval]; norm_num, by norm_num, by norm_num, ?_⟩
  · have hm : ⌊(11 / 500 : ℚ) * 10 ^ 3 + 1 / 2⌋ = 22 := by norm_num
    simp only [calculateQuantity, hq]
    rw [if_neg hne]
    simp only [goFormat, hm]
    decide
  · rw [hval]
    norm_num [preflightCheck]

/-! ## C10: request validation and the handler's rejection path -/

lemma buy_ne_sell : ¬ (sBUY = sSELL) := by decide

lemma sell_ne_buy : ¬ (sSELL = sBUY) := by decide

/-- C10: `validateTradeParams` accepts a request exactly when the side is
BUY or SELL, the entry price is positive, and the protective prices bracket
the entry on the correct sides for the side; and every rejected request is
answered with HTTP 400 before any venue call and before any store write. -/
theorem validateTradeParams_spec (req : TradeRequest) (env : VenueEnv)
    (tradeId : String) (now : ℤ) :
    (validateTradeParams req = none ↔
      ((req.side = sBUY ∨ req.side = sSELL) ∧ 0 < req.entryPrice ∧
       (req.side = sBUY →
         req.stopLoss < req.entryPrice ∧ req.entryPrice < req.takeProfit) ∧
       (req.side = sSELL →
         req.entryPrice < req.stopLoss ∧ req.takeProfit < req.entryPrice))) ∧
    (validateTradeParams req ≠ none →
      TradeHandler req env tradeId now =
        { httpStatus := 400, success := false, savedTrade := none
          monitorStarted := false, venueCalls := [] }) := by
  constructor
  · unfold validateTradeParams
    by_cases hbuy : req.side = sBUY
    · simp only [hbuy, buy_ne_sell, ne_eq, not_true_eq_false, false_and, if_false,
        true_or, true_and, forall_true_left, false_implies, and_true, if_true,
        eq_self_iff_true]
      split_ifs with h1 h2 h3
      · simp only [reduceCtorEq, false_iff]
        rintro ⟨hp, _⟩
        linarith
      · simp only [reduceCtorEq, false_iff]
        rintro ⟨hp, hsl, htp⟩
        linarith
      · simp only [reduceCtorEq, false_iff]
        rintro ⟨hp, hsl, htp⟩
        linarith
      · simp only [true_iff]
        push_neg at h1 h2 h3
        exact ⟨h1, h2, h3⟩
    · by_cases hsell : req.side = sSELL
      · simp only [hbuy, hsell, sell_ne_buy, ne_eq, not_true_eq_false, and_false,
          if_false, false_and, or_true, true_and, false_implies, true_implies,
          and_true, if_true, eq_self_iff_true, not_false_eq_true, true_and]
        split_ifs with h1 h2 h3
        · simp only [reduceCtorEq, false_iff]
          rintro ⟨hp, _⟩
          linarith
        · simp only [reduceCtorEq, false_iff]
          rintro ⟨hp, hsl, htp⟩
          linarith
        · simp only [reduceCtorEq, false_iff]
          rintro ⟨hp, hsl, htp⟩
          linarith
        · simp only [true_iff]
          push_neg at h1 h2 h3
          exact ⟨h1, h2, h3⟩
      · have hcond : req.side ≠ sBUY ∧ req.side ≠ sSELL := ⟨hbuy, hsell⟩
        rw [if_pos hcond]
        simp [hbuy, hsell]
  · intro hv
    cases h : validateTradeParams req with
    | none => exact absurd h hv
    | some m => simp [TradeHandler, h]

/-- Witness for C10 at `reqInvalid` (BUY with stop loss above entry): the
characterization holds and the handler answers 400 with no venue calls and
no stored trade. -/
theorem validateTradeParams_spec_witness :
    (validateTradeParams reqInvalid = none ↔
      ((reqInvalid.side = sBUY ∨ reqInvalid.side = sSELL) ∧ 0 < reqInvalid.entryPrice ∧
       (reqInvalid.side = sBUY →
         reqInvalid.stopLoss < reqInvalid.entryPrice ∧ reqInvalid.entryPrice < reqInvalid.takeProfit) ∧
       (reqInvalid.side = sSELL →
         reqInvalid.entryPrice < reqInvalid.stopLoss ∧ reqInvalid.takeProfit < reqInvalid.entryPrice))) ∧
    TradeHandler reqInvalid envSmall tid0 0 =
      { httpStatus := 400, success := false, savedTrade := none
        monitorStarted := false, venueCalls := [] } := by
  refine ⟨(validateTradeParams_spec reqInvalid envSmall tid0 0).1,
    (validateTradeParams_spec reqInvalid envSmall tid0 0).2 ?_⟩
  have h : validateTradeParams reqInvalid = some msgSLBuy := by
    norm_num [validateTradeParams, reqInvalid]
  rw [h]
  simp

/-! ## C8: the position monitor and terminal states -/

/-- C8 (amended): on observing FILLED or CANCELED the watcher updates the
trade's status and `closedAt`, persists exactly once, and terminates
immediately without polling again.  (On EXPIRED the update is also persisted
but the watcher does *not* terminate — see the counterexample.) -/
theorem monitor_terminal_fill_cancel (t : Trade) (st : String) (now : ℤ)
    (ps : List Poll) (h : st = stFILLED ∨ st = stCANCELED) :
    monitorRun t (Poll.ok st now :: ps) =
      (1, 1, { t with status := st, closedAt := now }) := by
  have hcond : st ≠ stNEW ∧ st ≠ stPARTIALLY_FILLED := by
    rcases h with h | h <;> subst h <;> exact ⟨by decide, by decide⟩
  simp [monitorRun, monitorStep, hcond.1, hcond.2, h]

/-- Witness for the amended C8: a FILLED observation at time 5 persists the
terminal status once and stops after a single poll. -/
theorem monitor_terminal_fill_cancel_witness :
    monitorRun (mkPendingTrade reqOk tid0 0) [Poll.ok stFILLED 5, Poll.err] =
      (1, 1, { mkPendingTrade reqOk tid0 0 with status := stFILLED, closedAt := 5 }) :=
  monitor_terminal_fill_cancel (mkPendingTrade reqOk tid0 0) stFILLED 5 [Poll.err]
    (Or.inl rfl)

/-- C8 counterexample: EXPIRED is a terminal order state and the watcher
persists it (status and `closedAt` are set, `UpdateTrade` is called), but it
does **not** terminate: with polls `[EXPIRED, FILLED]` the watcher polls a
second time after having observed the terminal EXPIRED state. -/
theorem monitor_expired_continues_cex :
    (monitorStep (mkPendingTrade reqOk tid0 0) (Poll.ok stEXPIRED 5)).trade.status
      = stEXPIRED ∧
    (monitorStep (mkPendingTrade reqOk tid0 0) (Poll.ok stEXPIRED 5)).persisted = true ∧
    (monitorStep (mkPendingTrade reqOk tid0 0) (Poll.ok stEXPIRED 5)).stop = false ∧
    (monitorRun (mkPendingTrade reqOk tid0 0)
      [Poll.ok stEXPIRED 5, Poll.ok stFILLED 6]).1 = 2 := by
  have hcond : stEXPIRED ≠ stNEW ∧ stEXPIRED ≠ stPARTIALLY_FILLED := by
    exact ⟨by decide, by decide⟩
  have hnf : ¬ (stEXPIRED = stFILLED ∨ stEXPIRED = stCANCELED) := by decide
  have hstep : monitorStep (mkPendingTrade reqOk tid0 0) (Poll.ok stEXPIRED 5) =
      { trade := { mkPendingTrade reqOk tid0 0 with status := stEXPIRED, closedAt := 5 }
        persisted := true, stop := false } := by
    simp only [monitorStep]
    rw [if_pos hcond, if_neg hnf]
  refine ⟨by rw [hstep], by rw [hstep], by rw [hstep], ?_⟩
  have hcond2 : stFILLED ≠ stNEW ∧ stFILLED ≠ stPARTIALLY_FILLED := by
    exact ⟨by decide, by decide⟩
  have hf : stFILLED = stFILLED ∨ stFILLED = stCANCELED := Or.inl rfl
  simp only [monitorRun]
  rw [hstep]
  simp [monitorStep, hcond2.1, hcond2.2, hf]

/-! ## C1, C2: the order-placement pipeline -/

/-- A trade created by the handler is always treated as a market order
(the handler never copies `OrderType`, so it stays `""`). -/
lemma isMarket_mkPending (req : TradeRequest) (tradeId : String) (now : ℤ) :
    isMarketOrder (mkPendingTrade req tradeId now) = true := by
  simp [isMarketOrder, mkPendingTrade]

/-- Unfolding of `PlaceFuturesOrder` past the resolved symbol info and a
successful leverage call. -/
lemma placeFuturesOrder_some (trade : Trade) (env : VenueEnv) (info : SymbolInfo)
    (henv : env.symbolInfo = some info) (hlev : env.leverageOk = true) :
    PlaceFuturesOrder trade env =
      (match preflightOf trade env info with
       | some e => (Except.error e, setupCalls trade)
       | none =>
         match env.entryOrder with
         | none => (Except.error OrderError.entryOrderFailed,
             setupCalls trade ++ [VenueCall.createEntryOrder])
         | some fill =>
           (Except.ok (attachLegs fill env.slOrder env.tpOrder),
             setupCalls trade ++ [VenueCall.createEntryOrder,
               VenueCall.createStopLossOrder, VenueCall.createTakeProfitOrder])) := by
  unfold PlaceFuturesOrder
  rw [henv, hlev]
  rfl

/-- When `PlaceFuturesOrder` fails for any reason other than the entry-order
placement itself, the venue calls performed are one of the three pre-order
prefixes (symbol info only; plus margin and leverage; plus the price fetch)
— in particular no order-creating call was made. -/
lemma placeFuturesOrder_calls_shape (trade : Trade) (env : VenueEnv) (e : OrderError)
    (hres : (PlaceFuturesOrder trade env).1 = .error e)
    (hne : e ≠ OrderError.entryOrderFailed) :
    (PlaceFuturesOrder trade env).2 = [VenueCall.getExchangeInfo] ∨
    (PlaceFuturesOrder trade env).2 =
      [VenueCall.getExchangeInfo, VenueCall.changeMarginType, VenueCall.changeLeverage] ∨
    (PlaceFuturesOrder trade env).2 = setupCalls trade := by
  cases henv : env.symbolInfo with
  | none =>
    have hu : PlaceFuturesOrder trade env =
        (.error .symbolInfoFailed, [VenueCall.getExchangeInfo]) := by
      unfold PlaceFuturesOrder
      rw [henv]
    rw [hu]
    
    left
    rfl
  | some info =>
    cases hlev : env.leverageOk with
    | false =>
      have hu : PlaceFuturesOrder trade env =
          (.error .leverageFailed,
           [VenueCall.getExchangeInfo, VenueCall.changeMarginType, VenueCall.changeLeverage]) := by
        unfold PlaceFuturesOrder
        rw [henv, hlev]
        rfl
      rw [hu]
      right; left
      rfl
    | true =>
      rw [placeFuturesOrder_some trade env info henv hlev] at hres ⊢
      cases hp : preflightOf trade env info with
      | some e2 =>
        right; right
        rfl
      | none =>
        rw [hp] at hres
        cases hent : env.entryOrder with
        | none =>
          rw [hent] at hres
          have hres2 : (Except.error OrderError.entryOrderFailed :
              Except OrderError OrderResult) = Except.error e := hres
          injection hres2 with h
          exact absurd h.symm hne
        | some fill =>
          rw [hent] at hres
          have hres2 : (Except.ok (attachLegs fill env.slOrder env.tpOrder) :
              Except OrderError OrderResult) = Except.error e := hres
          simp at hres2

/-- C1 (amended): when `PlaceFuturesOrder` fails one of the quantity
validations (zero quantity, out-of-bounds quantity, below-minimum notional),
no order-creating venue call has been made — the entry, stop-loss and
take-profit creations are never reached — and the handler records the trade
as FAILED with the reason and answers 500.  (The claim as frozen also asserts
that *no* venue calls at all are made and that the trade stays unsaved or
PENDING; both are falsified — see the counterexample: the symbol-info,
margin-type, leverage and price calls all precede the validation, and the
handler saves the trade with status FAILED.) -/
theorem preflight_no_order_placed (req : TradeRequest) (env : VenueEnv)
    (tradeId : String) (now : ℤ) (e : OrderError)
    (hv : validateTradeParams req = none)
    (hres : (PlaceFuturesOrder (mkPendingTrade req tradeId now) env).1 = .error e)
    (hpre : e = .zeroQuantity ∨ e = .belowMinQuantity ∨ e = .aboveMaxQuantity ∨
      e = .belowMinNotional) :
    VenueCall.createEntryOrder ∉ (PlaceFuturesOrder (mkPendingTrade req tradeId now) env).2 ∧
    VenueCall.createStopLossOrder ∉ (PlaceFuturesOrder (mkPendingTrade req tradeId now) env).2 ∧
    VenueCall.createTakeProfitOrder ∉ (PlaceFuturesOrder (mkPendingTrade req tradeId now) env).2 ∧
    (TradeHandler req env tradeId now).httpStatus = 500 ∧
    (TradeHandler req env tradeId now).savedTrade =
      some { mkPendingTrade req tradeId now with
             status := stFAILED, error := errMessage e } := by
  have hne : e ≠ OrderError.entryOrderFailed := by
    rcases hpre with h | h | h | h <;> subst h <;> decide
  have hcalls := placeFuturesOrder_calls_shape _ env e hres hne
  have hmem : ∀ c, c ∈ (PlaceFuturesOrder (mkPendingTrade req tradeId now) env).2 →
      c = VenueCall.getExchangeInfo ∨ c = VenueCall.changeMarginType ∨
      c = VenueCall.changeLeverage ∨ c = VenueCall.getPrice := by
    intro c hc
    rcases hcalls with h | h | h <;> rw [h] at hc
    · simp at hc
      simp [hc]
    · simp at hc
      rcases hc with h1 | h1 | h1 <;> simp [h1]
    · rw [setupCalls, isMarket_mkPending] at hc
      simp at hc
      rcases hc with h1 | h1 | h1 | h1 <;> simp [h1]
  refine ⟨?_, ?_, ?_, ?_, ?_⟩
  · intro hin
    rcases hmem _ hin with h | h | h | h <;> exact absurd h (by decide)
  · intro hin
    rcases hmem _ hin with h | h | h | h <;> exact absurd h (by decide)
  · intro hin
    rcases hmem _ hin with h | h | h | h <;> exact absurd h (by decide)
  · rcases hP : PlaceFuturesOrder (mkPendingTrade req tradeId now) env with ⟨res, calls⟩
    rw [hP] at hres
    simp at hres
    subst hres
    simp [TradeHandler, hv, hP]
  · rcases hP : PlaceFuturesOrder (mkPendingTrade req tradeId now) env with ⟨res, calls⟩
    rw [hP] at hres
    simp at hres
    subst hres
    simp [TradeHandler, hv, hP]

/-- Evaluation of the spec's rejection scenario: `size=1, leverage=1,
price=50000, step=0.001, minNotional=100` — the quantity clamps to one step
(0.001), the notional is 50 < 100, and the order is rejected as below the
minimum notional after the four setup venue calls. -/
lemma placeSmall_eval :
    PlaceFuturesOrder (mkPendingTrade reqSmall tid0 0) envSmall =
      (.error .belowMinNotional,
       [VenueCall.getExchangeInfo, VenueCall.changeMarginType,
        VenueCall.changeLeverage, VenueCall.getPrice]) := by
  have hqv : calculateQuantityVal 1 50000 1 3 (1 / 1000) = 1 / 1000 := by
    norm_num [calculateQuantityVal, calcQty, rawQuantity, roundToStepSize, qtrunc,
      fmtRound]
  have hprice : priceForCalc (mkPendingTrade reqSmall tid0 0) envSmall = 50000 := by
    rw [priceForCalc, isMarket_mkPending]
    simp [envSmall]
  have hq : parsedQtyOf (mkPendingTrade reqSmall tid0 0) envSmall infoStd = 1 / 1000 := by
    rw [parsedQtyOf, hprice]
    simpa [mkPendingTrade, reqSmall, infoStd] using hqv
  have hp : preflightOf (mkPendingTrade reqSmall tid0 0) envSmall infoStd =
      some .belowMinNotional := by
    rw [preflightOf, hq, hprice]
    norm_num [preflightCheck, infoStd]
  have hsetup : setupCalls (mkPendingTrade reqSmall tid0 0) =
      [VenueCall.getExchangeInfo, VenueCall.changeMarginType,
       VenueCall.changeLeverage, VenueCall.getPrice] := by
    rw [setupCalls, isMarket_mkPending]
    rfl
  rw [placeFuturesOrder_some (mkPendingTrade reqSmall tid0 0) envSmall infoStd rfl rfl,
    hp, hsetup]

/-- C1 counterexample: in the rejection scenario the order fails preflight
(below minimum notional), yet four venue calls — including the
state-changing margin-type and leverage calls — were already made, and the
handler saves the trade with status FAILED rather than leaving it unsaved or
PENDING. -/
theorem preflight_side_effects_cex :
    (PlaceFuturesOrder (mkPendingTrade reqSmall tid0 0) envSmall).1 =
      .error .belowMinNotional ∧
    (PlaceFuturesOrder (mkPendingTrade reqSmall tid0 0) envSmall).2 ≠ [] ∧
    VenueCall.changeLeverage ∈ (PlaceFuturesOrder (mkPendingTrade reqSmall tid0 0) envSmall).2 ∧
    ((TradeHandler reqSmall envSmall tid0 0).savedTrade.map Trade.status) =
      some stFAILED ∧
    ((TradeHandler reqSmall envSmall tid0 0).savedTrade.map Trade.status) ≠
      some stPENDING := by
  have hv : validateTradeParams reqSmall = none := by
    norm_num [validateTradeParams, reqSmall]
  refine ⟨by rw [placeSmall_eval], by rw [placeSmall_eval]; simp,
    by rw [placeSmall_eval]; simp, ?_, ?_⟩
  · simp [TradeHandler, hv, placeSmall_eval]
  · simp [TradeHandler, hv, placeSmall_eval]
    decide

/-- Witness for the amended C1 at the rejection scenario. -/
theorem preflight_no_order_placed_witness :
    VenueCall.createEntryOrder ∉ (PlaceFuturesOrder (mkPendingTrade reqSmall tid0 0) envSmall).2 ∧
    VenueCall.createStopLossOrder ∉ (PlaceFuturesOrder (mkPendingTrade reqSmall tid0 0) envSmall).2 ∧
    VenueCall.createTakeProfitOrder ∉ (PlaceFuturesOrder (mkPendingTrade reqSmall tid0 0) envSmall).2 ∧
    (TradeHandler reqSmall envSmall tid0 0).httpStatus = 500 ∧
    (TradeHandler reqSmall envSmall tid0 0).savedTrade =
      some { mkPendingTrade reqSmall tid0 0 with
             status := stFAILED, error := errMessage .belowMinNotional } :=
  preflight_no_order_placed reqSmall envSmall tid0 0 OrderError.belowMinNotional
    (by norm_num [validateTradeParams, reqSmall])
    (by rw [placeSmall_eval])
    (by right; right; right; rfl)

/-- C2: once the entry order succeeds, `PlaceFuturesOrder` returns a
successful result whatever happens to the protective legs: the stop-loss and
take-profit placements are both attempted (both creation calls appear in the
trace), a failed leg merely leaves its order id at 0 (`slOrderId`/`tpOrderId`
are taken from the leg outcome, 0 when absent), no cancellation of the entry
is ever issued, and the handler marks the trade ACTIVE (not FAILED), saves
it, and starts the monitor. -/
theorem entry_success_no_rollback (req : TradeRequest) (env : VenueEnv)
    (tradeId : String) (now : ℤ) (info : SymbolInfo) (fill : EntryFill)
    (henv : env.symbolInfo = some info)
    (hlev : env.leverageOk = true)
    (hpre : preflightOf (mkPendingTrade req tradeId now) env info = none)
    (hent : env.entryOrder = some fill)
    (hv : validateTradeParams req = none) :
    (PlaceFuturesOrder (mkPendingTrade req tradeId now) env).1 =
      .ok (attachLegs fill env.slOrder env.tpOrder) ∧
    (attachLegs fill env.slOrder env.tpOrder).slOrderId = env.slOrder.getD 0 ∧
    (attachLegs fill env.slOrder env.tpOrder).tpOrderId = env.tpOrder.getD 0 ∧
    VenueCall.createStopLossOrder ∈ (PlaceFuturesOrder (mkPendingTrade req tradeId now) env).2 ∧
    VenueCall.createTakeProfitOrder ∈ (PlaceFuturesOrder (mkPendingTrade req tradeId now) env).2 ∧
    VenueCall.cancelOrder ∉ (PlaceFuturesOrder (mkPendingTrade req tradeId now) env).2 ∧
    (TradeHandler req env tradeId now).httpStatus = 200 ∧
    (TradeHandler req env tradeId now).savedTrade =
      some { mkPendingTrade req tradeId now with
             status := stACTIVE, orderId := fill.orderId
             executedPrice := fill.avgPrice, executedAt := now } ∧
    (TradeHandler req env tradeId now).monitorStarted = true := by
  have hP : PlaceFuturesOrder (mkPendingTrade req tradeId now) env =
      (.ok (attachLegs fill env.slOrder env.tpOrder),
       setupCalls (mkPendingTrade req tradeId now) ++
         [VenueCall.createEntryOrder, VenueCall.createStopLossOrder,
          VenueCall.createTakeProfitOrder]) := by
    rw [placeFuturesOrder_some (mkPendingTrade req tradeId now) env info henv hlev,
      hpre, hent]
  have hsetup : setupCalls (mkPendingTrade req tradeId now) =
      [VenueCall.getExchangeInfo, VenueCall.changeMarginType,
       VenueCall.changeLeverage, VenueCall.getPrice] := by
    rw [setupCalls, isMarket_mkPending]
    rfl
  refine ⟨by rw [hP], rfl, rfl, ?_, ?_, ?_, ?_, ?_, ?_⟩
  · rw [hP, hsetup]
    simp
  · rw [hP, hsetup]
    simp
  · rw [hP, hsetup]
    simp
  · simp [TradeHandler, hv, hP]
  · simp [TradeHandler, hv, hP, attachLegs]
  · simp [TradeHandler, hv, hP]

/-- Evaluation of the quantity preflight for the acceptance scenario against
`envSlFail` (entry at 45000, step 0.001, min notional 100). -/
lemma preflightOk_eval :
    preflightOf (mkPendingTrade reqOk tid0 0) envSlFail infoNoMin = none := by
  have hprice : priceForCalc (mkPendingTrade reqOk tid0 0) envSlFail = 45000 := by
    rw [priceForCalc, isMarket_mkPending]
    simp [envSlFail]
  have hq : calculateQuantityVal 100 45000 10 3 (1 / 1000) = 11 / 500 := by
    have hc : calcQty 100 45000 10 3 (1 / 1000) = (1 / 1000, 11 / 500) := by
      norm_num [calcQty, rawQuantity, roundToStepSize, qtrunc]
    have hf : fmtRound ((11 : ℚ) / 500) 3 = 11 / 500 := by
      norm_num [fmtRound]
    have hne : ¬ (fmtRound ((11 : ℚ) / 500) 3 = 0) := by
      rw [hf]; norm_num
    simp only [calculateQuantityVal, hc]
    rw [if_neg hne, hf]
  have hpq : parsedQtyOf (mkPendingTrade reqOk tid0 0) envSlFail infoNoMin = 11 / 500 := by
    rw [parsedQtyOf, hprice]
    simpa [mkPendingTrade, reqOk, infoNoMin] using hq
  rw [preflightOf, hpq, hprice]
  norm_num [preflightCheck, infoNoMin]

/-- Witness for C2 at the acceptance scenario with a failing stop-loss leg
and a succeeding take-profit leg: the result carries `slOrderId = 0` and
`tpOrderId = 456`, both protective placements were attempted, no cancel was
issued, and the trade is saved ACTIVE. -/
theorem entry_success_no_rollback_witness :
    (PlaceFuturesOrder (mkPendingTrade reqOk tid0 0) envSlFail).1 =
      .ok (attachLegs fillOk envSlFail.slOrder envSlFail.tpOrder) ∧
    (attachLegs fillOk envSlFail.slOrder envSlFail.tpOrder).slOrderId =
      envSlFail.slOrder.getD 0 ∧
    (attachLegs fillOk envSlFail.slOrder envSlFail.tpOrder).tpOrderId =
      envSlFail.tpOrder.getD 0 ∧
    VenueCall.createStopLossOrder ∈ (PlaceFuturesOrder (mkPendingTrade reqOk tid0 0) envSlFail).2 ∧
    VenueCall.createTakeProfitOrder ∈ (PlaceFuturesOrder (mkPendingTrade reqOk tid0 0) envSlFail).2 ∧
    VenueCall.cancelOrder ∉ (PlaceFuturesOrder (mkPendingTrade reqOk tid0 0) envSlFail).2 ∧
    (TradeHandler reqOk envSlFail tid0 0).httpStatus = 200 ∧
    (TradeHandler reqOk envSlFail tid0 0).savedTrade =
      some { mkPendingTrade reqOk tid0 0 with
             status := stACTIVE, orderId := fillOk.orderId
             executedPrice := fillOk.avgPrice, executedAt := 0 } ∧
    (TradeHandler reqOk envSlFail tid0 0).monitorStarted = true :=
  entry_success_no_rollback reqOk envSlFail tid0 0 infoNoMin fillOk
    rfl rfl preflightOk_eval rfl
    (by norm_num [validateTradeParams, reqOk])

end TradingAPI
